import Mathlib

/-!
Shallow embedding of the iCFD lattice-Boltzmann (D2Q9) fluid solver and the
streamline tracer, together with proofs of the specification's claims.

The solver is `LBMSolver` (source: `lbmSolver.ts`); the tracer is the
bilinear `sample` helper and the streamline integration loop of the canvas
component (source: `FluidCanvas`).  Real-number arithmetic of the source is
modelled with `ℝ`; JS array indices (which are numbers) are modelled with `ℤ`,
with reads outside the allocated range returning the default value, which the
guarded source code never depends on.
-/

namespace LBM

/-- Velocity vectors, x components: the source array `EX = [0, 1, 0, -1, 0, 1, -1, -1, 1]`. -/
def EX : ℕ → ℤ
  | 0 => 0
  | 1 => 1
  | 2 => 0
  | 3 => -1
  | 4 => 0
  | 5 => 1
  | 6 => -1
  | 7 => -1
  | 8 => 1
  | _ => 0

/-- Velocity vectors, y components: the source array `EY = [0, 0, 1, 0, -1, 1, 1, -1, -1]`. -/
def EY : ℕ → ℤ
  | 0 => 0
  | 1 => 0
  | 2 => 1
  | 3 => 0
  | 4 => -1
  | 5 => 1
  | 6 => 1
  | 7 => -1
  | 8 => -1
  | _ => 0

/-- Lattice weights: the source array `W = [4/9, 1/9, 1/9, 1/9, 1/9, 1/36, 1/36, 1/36, 1/36]`,
kept as exact rationals. -/
def W : ℕ → ℚ
  | 0 => 4 / 9
  | 1 => 1 / 9
  | 2 => 1 / 9
  | 3 => 1 / 9
  | 4 => 1 / 9
  | 5 => 1 / 36
  | 6 => 1 / 36
  | 7 => 1 / 36
  | 8 => 1 / 36
  | _ => 0

/-- Opposite direction indices for bounce-back: the source array
`OPPOSITE = [0, 3, 4, 1, 2, 7, 8, 5, 6]`. -/
def OPPOSITE : ℕ → ℕ
  | 0 => 0
  | 1 => 3
  | 2 => 4
  | 3 => 1
  | 4 => 2
  | 5 => 7
  | 6 => 8
  | 7 => 5
  | 8 => 6
  | _ => 0

/-- The solver state: grid dimensions, viscosity and relaxation coefficient,
macroscopic fields `rho`, `ux`, `uy`, the two population buffers `f` and `fNew`
(direction index, then linear cell index `y * width + x`), and the obstacle
mask `barrier`. -/
structure LBMSolver where
  width : ℤ
  height : ℤ
  viscosity : ℝ
  omega : ℝ
  rho : ℤ → ℝ
  ux : ℤ → ℝ
  uy : ℤ → ℝ
  f : ℕ → ℤ → ℝ
  fNew : ℕ → ℤ → ℝ
  barrier : List Bool

/-- Reading `this.barrier[idx]`: a JS array read, `false` (undefined is falsy)
outside the stored list. -/
def LBMSolver.barrierAt (s : LBMSolver) (idx : ℤ) : Bool :=
  if 0 ≤ idx then s.barrier.getD idx.toNat false else false

/-- `idx` is a linear index visited by the cell loops `for y in [0,h) for x in [0,w)`:
equivalently `0 ≤ idx < width * height` with a positive `width`. -/
def LBMSolver.validIdx (s : LBMSolver) (idx : ℤ) : Prop :=
  0 < s.width ∧ 0 ≤ idx ∧ idx < s.width * s.height

instance (s : LBMSolver) (idx : ℤ) : Decidable (s.validIdx idx) :=
  inferInstanceAs (Decidable (_ ∧ _ ∧ _))

noncomputable section

/-- `computeEquilibrium(i, rho, ux, uy)`:
`W[i] * rho * (1 + 3*eu + 4.5*eu*eu - 1.5*uv)` with `eu = EX[i]*ux + EY[i]*uy`
and `uv = ux*ux + uy*uy`. -/
def computeEquilibrium (i : ℕ) (rho ux uy : ℝ) : ℝ :=
  let eu : ℝ := (EX i : ℝ) * ux + (EY i : ℝ) * uy
  let uv : ℝ := ux * ux + uy * uy
  (W i : ℝ) * rho * (1 + 3 * eu + 4.5 * (eu * eu) - 1.5 * uv)

/-- The value Pass 1 of `step` writes into `fNew[i][y*w + x]` at a fluid cell
`(x, y)`: pull from the source cell `(x - EX[i], y - EY[i])`, with bounce-back
at in-grid solid sources, inlet equilibrium for sources off the left edge,
zero-gradient copy from column `w - 1` for sources off the right edge, and
inlet equilibrium again for sources off the top or bottom edge. -/
def streamVal (s : LBMSolver) (inletSpeed : ℝ) (i : ℕ) (x y : ℤ) : ℝ :=
  let srcX : ℤ := x - EX i
  let srcY : ℤ := y - EY i
  if 0 ≤ srcX ∧ srcX < s.width ∧ 0 ≤ srcY ∧ srcY < s.height then
    if s.barrierAt (srcY * s.width + srcX) then
      s.f (OPPOSITE i) (y * s.width + x)
    else
      s.f i (srcY * s.width + srcX)
  else if srcX < 0 then
    computeEquilibrium i 1 inletSpeed 0
  else if s.width ≤ srcX then
    s.f i (y * s.width + (s.width - 1))
  else
    computeEquilibrium i 1 inletSpeed 0

/-- Pass 1 of `step` (streaming and boundary resolution): solid cells get
`ux = uy = 0`, `rho = 1` and are otherwise skipped; each fluid cell's nine
`fNew` entries are filled by `streamVal`.  Cells outside the loop range keep
their old values. -/
def LBMSolver.pass1 (s : LBMSolver) (inletSpeed : ℝ) : LBMSolver :=
  { s with
    ux := fun idx => if s.validIdx idx ∧ s.barrierAt idx then 0 else s.ux idx
    uy := fun idx => if s.validIdx idx ∧ s.barrierAt idx then 0 else s.uy idx
    rho := fun idx => if s.validIdx idx ∧ s.barrierAt idx then 1 else s.rho idx
    fNew := fun i idx =>
      if i < 9 ∧ s.validIdx idx ∧ ¬s.barrierAt idx then
        streamVal s inletSpeed i (idx % s.width) (idx / s.width)
      else s.fNew i idx }

/-- Pass 2 moment accumulation: `rho = Σ fNew[i][idx]`. -/
def cellRho (s : LBMSolver) (idx : ℤ) : ℝ :=
  ∑ i ∈ Finset.range 9, s.fNew i idx

/-- Pass 2 moment accumulation: `Σ fNew[i][idx] * EX[i]`. -/
def cellMomX (s : LBMSolver) (idx : ℤ) : ℝ :=
  ∑ i ∈ Finset.range 9, s.fNew i idx * (EX i : ℝ)

/-- Pass 2 moment accumulation: `Σ fNew[i][idx] * EY[i]`. -/
def cellMomY (s : LBMSolver) (idx : ℤ) : ℝ :=
  ∑ i ∈ Finset.range 9, s.fNew i idx * (EY i : ℝ)

/-- The velocity of a cell before the stability clamp: momentum divided by
density when `rho > 0`, the raw momentum sums otherwise. -/
def preClampU (s : LBMSolver) (idx : ℤ) : ℝ × ℝ :=
  let r := cellRho s idx
  if 0 < r then (cellMomX s idx / r, cellMomY s idx / r)
  else (cellMomX s idx, cellMomY s idx)

/-- The stability clamp: if `speed = sqrt(ux*ux + uy*uy)` exceeds `maxU = 0.35`,
scale both components by `maxU / speed`. -/
def clampVelocity (u : ℝ × ℝ) : ℝ × ℝ :=
  let speed := Real.sqrt (u.1 * u.1 + u.2 * u.2)
  if 0.35 < speed then (u.1 * (0.35 / speed), u.2 * (0.35 / speed)) else u

/-- Pass 2 of `step` (collision): for every fluid cell, store the moments
(velocity clamped) into `rho`, `ux`, `uy`, and relax each population toward
equilibrium with the BGK rule
`fNew[i] = (1 - omega) * fNew[i] + omega * feq`. -/
def LBMSolver.pass2 (s : LBMSolver) : LBMSolver :=
  { s with
    rho := fun idx =>
      if s.validIdx idx ∧ ¬s.barrierAt idx then cellRho s idx else s.rho idx
    ux := fun idx =>
      if s.validIdx idx ∧ ¬s.barrierAt idx then (clampVelocity (preClampU s idx)).1
      else s.ux idx
    uy := fun idx =>
      if s.validIdx idx ∧ ¬s.barrierAt idx then (clampVelocity (preClampU s idx)).2
      else s.uy idx
    fNew := fun i idx =>
      if i < 9 ∧ s.validIdx idx ∧ ¬s.barrierAt idx then
        (1 - s.omega) * s.fNew i idx +
          s.omega * computeEquilibrium i (cellRho s idx)
            (clampVelocity (preClampU s idx)).1 (clampVelocity (preClampU s idx)).2
      else s.fNew i idx }

/-- `step(inletSpeed)`: streaming pass, collision pass, then the pointer swap
of the `f` and `fNew` buffers. -/
def LBMSolver.step (s : LBMSolver) (inletSpeed : ℝ) : LBMSolver :=
  let s2 := (s.pass1 inletSpeed).pass2
  { s2 with f := s2.fNew, fNew := s2.f }

/-- The state built by the class constructor body for an allocation size
`width * height ≥ 0`: `rho` filled with 1, `ux`/`uy`/`fNew` zeroed, `barrier`
all-`false`, and every population `f[i][j] = W[i]` (so `rho = 1`, `u = 0`). -/
def LBMSolver.init (w h : ℤ) (v : ℝ) : LBMSolver :=
  { width := w
    height := h
    viscosity := v
    omega := 1 / (3 * v + 0.5)
    rho := fun idx => if 0 ≤ idx ∧ idx < w * h then 1 else 0
    ux := fun _ => 0
    uy := fun _ => 0
    f := fun i idx => if i < 9 ∧ 0 ≤ idx ∧ idx < w * h then (W i : ℝ) else 0
    fNew := fun _ _ => 0
    barrier := List.replicate (w * h).toNat false }

/-- `new LBMSolver(width, height, viscosity)`: the constructor allocates
`Float32Array(width * height)` buffers; a JS typed-array allocation with a
negative length throws a `RangeError`, modelled as `none`.  Every other
allocation (including length 0) succeeds and yields `LBMSolver.init`. -/
def LBMSolver.construct (w h : ℤ) (v : ℝ) : Option LBMSolver :=
  if w * h < 0 then none else some (LBMSolver.init w h v)

/-- `setObstacles(barriers)`: replaces the mask, unless the length differs from
`width * height`, in which case the call returns with no change. -/
def LBMSolver.setObstacles (s : LBMSolver) (barriers : List Bool) : LBMSolver :=
  if (barriers.length : ℤ) ≠ s.width * s.height then s
  else { s with barrier := barriers }

/-- `setViscosity(v)`: stores the viscosity and recomputes
`omega = 1 / (3*v + 0.5)`. -/
def LBMSolver.setViscosity (s : LBMSolver) (v : ℝ) : LBMSolver :=
  { s with viscosity := v, omega := 1 / (3 * v + 0.5) }

/-- The canvas component's bilinear sampler `sample(data, x, y, w)` over an
array of length `w * h`: clamp `x` into `[0, w - 1.001]`, return 0 when a
vertical neighbour row or the last corner index would fall outside the array,
otherwise interpolate the four surrounding cells. -/
def sample (data : ℤ → ℝ) (w h : ℤ) (x y : ℝ) : ℝ :=
  let xx := max 0 (min x ((w : ℝ) - 1.001))
  let x0 := ⌊xx⌋
  let y0 := ⌊y⌋
  let x1 := x0 + 1
  let y1 := y0 + 1
  let dx := xx - (x0 : ℝ)
  let dy := y - (y0 : ℝ)
  if y0 < 0 ∨ h ≤ y1 then 0
  else
    let i00 := y0 * w + x0
    let i10 := y0 * w + x1
    let i01 := y1 * w + x0
    let i11 := y1 * w + x1
    if w * h ≤ i11 then 0
    else
      let v00 := data i00
      let v10 := data i10
      let v01 := data i01
      let v11 := data i11
      let v0 := v00 * (1 - dx) + v10 * dx
      let v1 := v01 * (1 - dx) + v11 * dx
      v0 * (1 - dy) + v1 * dy

/-- The streamline integration loop of the canvas component, started at an
arbitrary position: stop when the position leaves
`[0, w - 1) × [0, h - 1)`, when the bilinearly sampled speed drops below
0.001, or when the integer cell under the position is solid; otherwise advance
by the unit flow direction scaled by the step size 0.5 and emit the new
position.  The fuel argument is the remaining iteration count of the bounded
`for` loop (`maxSteps` in the source). -/
def traceFrom (ux uy : ℤ → ℝ) (barrier : ℤ → Bool) (w h : ℤ) :
    ℕ → ℝ × ℝ → List (ℝ × ℝ)
  | 0, _ => []
  | n + 1, p =>
    if p.1 < 0 ∨ (w : ℝ) - 1 ≤ p.1 ∨ p.2 < 0 ∨ (h : ℝ) - 1 ≤ p.2 then []
    else
      let u := sample ux w h p.1 p.2
      let v := sample uy w h p.1 p.2
      let speed := Real.sqrt (u * u + v * v)
      if speed < 0.001 then []
      else if barrier (⌊p.2⌋ * w + ⌊p.1⌋) then []
      else
        let q : ℝ × ℝ := (p.1 + u / speed * 0.5, p.2 + v / speed * 0.5)
        q :: traceFrom ux uy barrier w h n q

end

/-! ### Facts about the constant tables -/

lemma OPPOSITE_lt_nine : ∀ i < 9, OPPOSITE i < 9 := by decide

lemma W_OPPOSITE : ∀ i < 9, W (OPPOSITE i) = W i := by
  intro i hi
  interval_cases i <;> rfl

lemma EX_bounds : ∀ i < 9, -1 ≤ EX i ∧ EX i ≤ 1 := by decide

lemma EY_bounds : ∀ i < 9, -1 ≤ EY i ∧ EY i ≤ 1 := by decide

lemma EX_OPPOSITE_neg : ∀ i < 9, EX (OPPOSITE i) = -EX i := by decide

lemma EY_OPPOSITE_neg : ∀ i < 9, EY (OPPOSITE i) = -EY i := by decide

lemma sum_W : ∑ i ∈ Finset.range 9, (W i : ℝ) = 1 := by
  norm_num [Finset.sum_range_succ, W]

lemma sum_W_EX : ∑ i ∈ Finset.range 9, (W i : ℝ) * (EX i : ℝ) = 0 := by
  norm_num [Finset.sum_range_succ, W, EX]

lemma sum_W_EY : ∑ i ∈ Finset.range 9, (W i : ℝ) * (EY i : ℝ) = 0 := by
  norm_num [Finset.sum_range_succ, W, EY]

lemma computeEquilibrium_rest (i : ℕ) (rho : ℝ) :
    computeEquilibrium i rho 0 0 = (W i : ℝ) * rho := by
  simp [computeEquilibrium]

/-! ### Linear cell indexing -/

lemma idx_emod (w x y : ℤ) (hx0 : 0 ≤ x) (hxw : x < w) : (y * w + x) % w = x := by
  rw [mul_comm y w, add_comm, Int.add_mul_emod_self_left, Int.emod_eq_of_lt hx0 hxw]

lemma idx_ediv (w x y : ℤ) (hx0 : 0 ≤ x) (hxw : x < w) : (y * w + x) / w = y := by
  have hw : w ≠ 0 := by omega
  rw [mul_comm y w, add_comm, Int.add_mul_ediv_left x y hw,
    Int.ediv_eq_zero_of_lt hx0 hxw, zero_add]

lemma idx_bounds (w h x y : ℤ) (hx0 : 0 ≤ x) (hxw : x < w) (hy0 : 0 ≤ y)
    (hyh : y < h) : 0 ≤ y * w + x ∧ y * w + x < w * h := by
  constructor
  · nlinarith
  · nlinarith

lemma coords_of_validIdx (s : LBMSolver) (idx : ℤ) (hv : s.validIdx idx) :
    0 ≤ idx % s.width ∧ idx % s.width < s.width ∧
      0 ≤ idx / s.width ∧ idx / s.width < s.height ∧
      (idx / s.width) * s.width + idx % s.width = idx := by
  obtain ⟨hw, h0, h1⟩ := hv
  refine ⟨Int.emod_nonneg idx (by omega), Int.emod_lt_of_pos idx hw,
    Int.ediv_nonneg h0 (le_of_lt hw), ?_, ?_⟩
  · rw [Int.ediv_lt_iff_lt_mul hw]
    nlinarith
  · have := Int.ediv_add_emod idx s.width
    linarith [this]

/-! ### The stability clamp -/

lemma clampVelocity_not_over (u : ℝ × ℝ)
    (h : ¬0.35 < Real.sqrt (u.1 * u.1 + u.2 * u.2)) : clampVelocity u = u := by
  simp only [clampVelocity]
  rw [if_neg h]

lemma clampVelocity_over (u : ℝ × ℝ)
    (h : 0.35 < Real.sqrt (u.1 * u.1 + u.2 * u.2)) :
    clampVelocity u =
      (u.1 * (0.35 / Real.sqrt (u.1 * u.1 + u.2 * u.2)),
       u.2 * (0.35 / Real.sqrt (u.1 * u.1 + u.2 * u.2))) := by
  simp only [clampVelocity]
  rw [if_pos h]

lemma clamp_scaled_sq (u : ℝ × ℝ)
    (h : 0.35 < Real.sqrt (u.1 * u.1 + u.2 * u.2)) :
    (u.1 * (0.35 / Real.sqrt (u.1 * u.1 + u.2 * u.2))) ^ 2 +
      (u.2 * (0.35 / Real.sqrt (u.1 * u.1 + u.2 * u.2))) ^ 2 = 0.35 ^ 2 := by
  have hnn : (0 : ℝ) ≤ u.1 * u.1 + u.2 * u.2 := by nlinarith
  have hsq : Real.sqrt (u.1 * u.1 + u.2 * u.2) ^ 2 = u.1 * u.1 + u.2 * u.2 :=
    Real.sq_sqrt hnn
  have hpos : (0 : ℝ) < Real.sqrt (u.1 * u.1 + u.2 * u.2) := lt_trans (by norm_num) h
  have hne : Real.sqrt (u.1 * u.1 + u.2 * u.2) ≠ 0 := ne_of_gt hpos
  have hstep : (u.1 * (0.35 / Real.sqrt (u.1 * u.1 + u.2 * u.2))) ^ 2 +
      (u.2 * (0.35 / Real.sqrt (u.1 * u.1 + u.2 * u.2))) ^ 2 =
      (u.1 * u.1 + u.2 * u.2) * (0.35 / Real.sqrt (u.1 * u.1 + u.2 * u.2)) ^ 2 := by
    ring
  have hS : u.1 * u.1 + u.2 * u.2 ≠ 0 := by
    rw [← hsq]
    exact pow_ne_zero 2 hne
  rw [hstep, div_pow, hsq, mul_comm, div_mul_cancel₀ _ hS]

lemma clampVelocity_norm_le (u : ℝ × ℝ) :
    Real.sqrt ((clampVelocity u).1 ^ 2 + (clampVelocity u).2 ^ 2) ≤ 0.35 := by
  by_cases h : 0.35 < Real.sqrt (u.1 * u.1 + u.2 * u.2)
  · rw [clampVelocity_over u h, clamp_scaled_sq u h,
      Real.sqrt_sq (by norm_num : (0 : ℝ) ≤ 0.35)]
  · rw [clampVelocity_not_over u h]
    have harg : u.1 ^ 2 + u.2 ^ 2 = u.1 * u.1 + u.2 * u.2 := by ring
    rw [harg]
    exact le_of_not_lt h

lemma clampVelocity_norm_eq_of_over (u : ℝ × ℝ)
    (h : 0.35 < Real.sqrt (u.1 * u.1 + u.2 * u.2)) :
    Real.sqrt ((clampVelocity u).1 ^ 2 + (clampVelocity u).2 ^ 2) = 0.35 := by
  rw [clampVelocity_over u h, clamp_scaled_sq u h,
    Real.sqrt_sq (by norm_num : (0 : ℝ) ≤ 0.35)]

/-! ### Projection lemmas: which fields each operation leaves unchanged -/

@[simp] lemma pass1_width (s : LBMSolver) (c : ℝ) : (s.pass1 c).width = s.width := rfl
@[simp] lemma pass1_height (s : LBMSolver) (c : ℝ) : (s.pass1 c).height = s.height := rfl
@[simp] lemma pass1_barrier (s : LBMSolver) (c : ℝ) : (s.pass1 c).barrier = s.barrier := rfl
@[simp] lemma pass1_omega (s : LBMSolver) (c : ℝ) : (s.pass1 c).omega = s.omega := rfl
@[simp] lemma pass1_f (s : LBMSolver) (c : ℝ) : (s.pass1 c).f = s.f := rfl

@[simp] lemma pass2_width (s : LBMSolver) : s.pass2.width = s.width := rfl
@[simp] lemma pass2_height (s : LBMSolver) : s.pass2.height = s.height := rfl
@[simp] lemma pass2_barrier (s : LBMSolver) : s.pass2.barrier = s.barrier := rfl
@[simp] lemma pass2_omega (s : LBMSolver) : s.pass2.omega = s.omega := rfl

@[simp] lemma step_width (s : LBMSolver) (c : ℝ) : (s.step c).width = s.width := rfl
@[simp] lemma step_height (s : LBMSolver) (c : ℝ) : (s.step c).height = s.height := rfl
@[simp] lemma step_barrier (s : LBMSolver) (c : ℝ) : (s.step c).barrier = s.barrier := rfl
@[simp] lemma step_omega (s : LBMSolver) (c : ℝ) : (s.step c).omega = s.omega := rfl

@[simp] lemma pass1_barrierAt (s : LBMSolver) (c : ℝ) (idx : ℤ) :
    (s.pass1 c).barrierAt idx = s.barrierAt idx := rfl

@[simp] lemma pass2_barrierAt (s : LBMSolver) (idx : ℤ) :
    s.pass2.barrierAt idx = s.barrierAt idx := rfl

@[simp] lemma step_barrierAt (s : LBMSolver) (c : ℝ) (idx : ℤ) :
    (s.step c).barrierAt idx = s.barrierAt idx := rfl

@[simp] lemma pass1_validIdx (s : LBMSolver) (c : ℝ) (idx : ℤ) :
    (s.pass1 c).validIdx idx ↔ s.validIdx idx := Iff.rfl

@[simp] lemma pass2_validIdx (s : LBMSolver) (idx : ℤ) :
    s.pass2.validIdx idx ↔ s.validIdx idx := Iff.rfl

@[simp] lemma step_validIdx (s : LBMSolver) (c : ℝ) (idx : ℤ) :
    (s.step c).validIdx idx ↔ s.validIdx idx := Iff.rfl

lemma setObstacles_width (s : LBMSolver) (m : List Bool) :
    (s.setObstacles m).width = s.width := by
  unfold LBMSolver.setObstacles
  split <;> rfl

lemma setObstacles_height (s : LBMSolver) (m : List Bool) :
    (s.setObstacles m).height = s.height := by
  unfold LBMSolver.setObstacles
  split <;> rfl

lemma setObstacles_f (s : LBMSolver) (m : List Bool) :
    (s.setObstacles m).f = s.f := by
  unfold LBMSolver.setObstacles
  split <;> rfl

lemma setObstacles_rho (s : LBMSolver) (m : List Bool) :
    (s.setObstacles m).rho = s.rho := by
  unfold LBMSolver.setObstacles
  split <;> rfl

lemma setObstacles_ux (s : LBMSolver) (m : List Bool) :
    (s.setObstacles m).ux = s.ux := by
  unfold LBMSolver.setObstacles
  split <;> rfl

lemma setObstacles_uy (s : LBMSolver) (m : List Bool) :
    (s.setObstacles m).uy = s.uy := by
  unfold LBMSolver.setObstacles
  split <;> rfl

/-! ### Pointwise values of the two passes and of `step` -/

lemma pass1_fNew_fluid (s : LBMSolver) (c : ℝ) (i : ℕ) (idx : ℤ) (hi : i < 9)
    (hv : s.validIdx idx) (hb : s.barrierAt idx = false) :
    (s.pass1 c).fNew i idx = streamVal s c i (idx % s.width) (idx / s.width) := by
  simp [LBMSolver.pass1, hi, hv, hb]

lemma pass1_ux_solid (s : LBMSolver) (c : ℝ) (idx : ℤ)
    (hv : s.validIdx idx) (hb : s.barrierAt idx = true) : (s.pass1 c).ux idx = 0 := by
  simp [LBMSolver.pass1, hv, hb]

lemma pass1_uy_solid (s : LBMSolver) (c : ℝ) (idx : ℤ)
    (hv : s.validIdx idx) (hb : s.barrierAt idx = true) : (s.pass1 c).uy idx = 0 := by
  simp [LBMSolver.pass1, hv, hb]

lemma pass1_rho_solid (s : LBMSolver) (c : ℝ) (idx : ℤ)
    (hv : s.validIdx idx) (hb : s.barrierAt idx = true) : (s.pass1 c).rho idx = 1 := by
  simp [LBMSolver.pass1, hv, hb]

lemma pass2_rho_fluid (s : LBMSolver) (idx : ℤ)
    (hv : s.validIdx idx) (hb : s.barrierAt idx = false) :
    s.pass2.rho idx = cellRho s idx := by
  simp [LBMSolver.pass2, hv, hb]

lemma pass2_ux_fluid (s : LBMSolver) (idx : ℤ)
    (hv : s.validIdx idx) (hb : s.barrierAt idx = false) :
    s.pass2.ux idx = (clampVelocity (preClampU s idx)).1 := by
  simp [LBMSolver.pass2, hv, hb]

lemma pass2_uy_fluid (s : LBMSolver) (idx : ℤ)
    (hv : s.validIdx idx) (hb : s.barrierAt idx = false) :
    s.pass2.uy idx = (clampVelocity (preClampU s idx)).2 := by
  simp [LBMSolver.pass2, hv, hb]

lemma pass2_fNew_fluid (s : LBMSolver) (i : ℕ) (idx : ℤ) (hi : i < 9)
    (hv : s.validIdx idx) (hb : s.barrierAt idx = false) :
    s.pass2.fNew i idx =
      (1 - s.omega) * s.fNew i idx +
        s.omega * computeEquilibrium i (cellRho s idx)
          (clampVelocity (preClampU s idx)).1 (clampVelocity (preClampU s idx)).2 := by
  simp [LBMSolver.pass2, hi, hv, hb]

lemma pass2_rho_solid (s : LBMSolver) (idx : ℤ) (hb : s.barrierAt idx = true) :
    s.pass2.rho idx = s.rho idx := by
  simp [LBMSolver.pass2, hb]

lemma pass2_ux_solid (s : LBMSolver) (idx : ℤ) (hb : s.barrierAt idx = true) :
    s.pass2.ux idx = s.ux idx := by
  simp [LBMSolver.pass2, hb]

lemma pass2_uy_solid (s : LBMSolver) (idx : ℤ) (hb : s.barrierAt idx = true) :
    s.pass2.uy idx = s.uy idx := by
  simp [LBMSolver.pass2, hb]

lemma step_rho_eq (s : LBMSolver) (c : ℝ) : (s.step c).rho = (s.pass1 c).pass2.rho := rfl

lemma step_ux_eq (s : LBMSolver) (c : ℝ) : (s.step c).ux = (s.pass1 c).pass2.ux := rfl

lemma step_uy_eq (s : LBMSolver) (c : ℝ) : (s.step c).uy = (s.pass1 c).pass2.uy := rfl

lemma step_f_eq (s : LBMSolver) (c : ℝ) : (s.step c).f = (s.pass1 c).pass2.fNew := rfl

/-! ### The rest state (all populations at their weights) is preserved by `step 0` -/

/-- All populations of every fluid cell sit at their lattice weights. -/
def RestInv (s : LBMSolver) : Prop :=
  ∀ i < 9, ∀ idx : ℤ, s.validIdx idx → s.barrierAt idx = false → s.f i idx = (W i : ℝ)

lemma streamVal_rest (s : LBMSolver) (hInv : RestInv s) (i : ℕ) (hi : i < 9)
    (x y : ℤ) (hx0 : 0 ≤ x) (hxw : x < s.width) (hy0 : 0 ≤ y) (hyh : y < s.height)
    (hfluid : s.barrierAt (y * s.width + x) = false) :
    streamVal s 0 i x y = (W i : ℝ) := by
  have hw : 0 < s.width := by omega
  simp only [streamVal]
  by_cases hin : 0 ≤ x - EX i ∧ x - EX i < s.width ∧ 0 ≤ y - EY i ∧ y - EY i < s.height
  · rw [if_pos hin]
    obtain ⟨hsx0, hsxw, hsy0, hsyh⟩ := hin
    have hsrc : (s.validIdx ((y - EY i) * s.width + (x - EX i))) :=
      ⟨hw, (idx_bounds s.width s.height _ _ hsx0 hsxw hsy0 hsyh).1,
        (idx_bounds s.width s.height _ _ hsx0 hsxw hsy0 hsyh).2⟩
    by_cases hbar : s.barrierAt ((y - EY i) * s.width + (x - EX i)) = true
    · rw [if_pos hbar]
      have hvxy : s.validIdx (y * s.width + x) :=
        ⟨hw, (idx_bounds s.width s.height x y hx0 hxw hy0 hyh).1,
          (idx_bounds s.width s.height x y hx0 hxw hy0 hyh).2⟩
      rw [hInv (OPPOSITE i) (OPPOSITE_lt_nine i hi) _ hvxy hfluid, W_OPPOSITE i hi]
    · rw [if_neg hbar]
      exact hInv i hi _ hsrc (by simpa using hbar)
  · rw [if_neg hin]
    by_cases hleft : x - EX i < 0
    · rw [if_pos hleft, computeEquilibrium_rest, mul_one]
    · rw [if_neg hleft]
      by_cases hright : s.width ≤ x - EX i
      · rw [if_pos hright]
        have hEX := (EX_bounds i hi).1
        have hxeq : s.width - 1 = x := by omega
        rw [hxeq]
        have hvxy : s.validIdx (y * s.width + x) :=
          ⟨hw, (idx_bounds s.width s.height x y hx0 hxw hy0 hyh).1,
            (idx_bounds s.width s.height x y hx0 hxw hy0 hyh).2⟩
        exact hInv i hi _ hvxy hfluid
      · rw [if_neg hright, computeEquilibrium_rest, mul_one]

lemma pass1_fNew_rest (s : LBMSolver) (hInv : RestInv s) (i : ℕ) (hi : i < 9)
    (idx : ℤ) (hv : s.validIdx idx) (hb : s.barrierAt idx = false) :
    (s.pass1 0).fNew i idx = (W i : ℝ) := by
  rw [pass1_fNew_fluid s 0 i idx hi hv hb]
  obtain ⟨hx0, hxw, hy0, hyh, hdec⟩ := coords_of_validIdx s idx hv
  have hfl : s.barrierAt ((idx / s.width) * s.width + idx % s.width) = false := by
    rw [hdec]; exact hb
  exact streamVal_rest s hInv i hi _ _ hx0 hxw hy0 hyh hfl

lemma cellRho_of_W (t : LBMSolver) (idx : ℤ)
    (hW : ∀ i < 9, t.fNew i idx = (W i : ℝ)) : cellRho t idx = 1 := by
  unfold cellRho
  rw [Finset.sum_congr rfl fun i hi => hW i (Finset.mem_range.mp hi)]
  exact sum_W

lemma cellMomX_of_W (t : LBMSolver) (idx : ℤ)
    (hW : ∀ i < 9, t.fNew i idx = (W i : ℝ)) : cellMomX t idx = 0 := by
  unfold cellMomX
  rw [Finset.sum_congr rfl fun i hi => by rw [hW i (Finset.mem_range.mp hi)]]
  exact sum_W_EX

lemma cellMomY_of_W (t : LBMSolver) (idx : ℤ)
    (hW : ∀ i < 9, t.fNew i idx = (W i : ℝ)) : cellMomY t idx = 0 := by
  unfold cellMomY
  rw [Finset.sum_congr rfl fun i hi => by rw [hW i (Finset.mem_range.mp hi)]]
  exact sum_W_EY

lemma preClampU_of_W (t : LBMSolver) (idx : ℤ)
    (hW : ∀ i < 9, t.fNew i idx = (W i : ℝ)) : preClampU t idx = (0, 0) := by
  simp only [preClampU, cellRho_of_W t idx hW, cellMomX_of_W t idx hW,
    cellMomY_of_W t idx hW]
  norm_num

lemma clampVelocity_zero : clampVelocity ((0 : ℝ), (0 : ℝ)) = (0, 0) := by
  have h : ¬(0.35 : ℝ) < Real.sqrt ((0 : ℝ) * 0 + 0 * 0) := by
    norm_num [Real.sqrt_zero]
  exact clampVelocity_not_over _ h

lemma pass2_rest (t : LBMSolver) (idx : ℤ)
    (hv : t.validIdx idx) (hb : t.barrierAt idx = false)
    (hW : ∀ i < 9, t.fNew i idx = (W i : ℝ)) :
    t.pass2.rho idx = 1 ∧ t.pass2.ux idx = 0 ∧ t.pass2.uy idx = 0 ∧
      ∀ i < 9, t.pass2.fNew i idx = (W i : ℝ) := by
  have hcl : clampVelocity (preClampU t idx) = (0, 0) := by
    rw [preClampU_of_W t idx hW, clampVelocity_zero]
  refine ⟨?_, ?_, ?_, ?_⟩
  · rw [pass2_rho_fluid t idx hv hb, cellRho_of_W t idx hW]
  · rw [pass2_ux_fluid t idx hv hb, hcl]
  · rw [pass2_uy_fluid t idx hv hb, hcl]
  · intro i hi
    rw [pass2_fNew_fluid t i idx hi hv hb, hW i hi, cellRho_of_W t idx hW, hcl,
      computeEquilibrium_rest, mul_one]
    ring

lemma step_rest (s : LBMSolver) (hInv : RestInv s) :
    RestInv (s.step 0) ∧
      ∀ idx : ℤ, s.validIdx idx → s.barrierAt idx = false →
        (s.step 0).rho idx = 1 ∧ (s.step 0).ux idx = 0 ∧ (s.step 0).uy idx = 0 := by
  have hW : ∀ idx : ℤ, s.validIdx idx → s.barrierAt idx = false →
      ∀ i < 9, (s.pass1 0).fNew i idx = (W i : ℝ) := fun idx hv hb i hi =>
    pass1_fNew_rest s hInv i hi idx hv hb
  constructor
  · intro i hi idx hv hb
    rw [step_validIdx] at hv
    rw [step_barrierAt] at hb
    have hres := pass2_rest (s.pass1 0) idx hv hb (hW idx hv hb)
    rw [congrFun (congrFun (step_f_eq s 0) i) idx]
    exact hres.2.2.2 i hi
  · intro idx hv hb
    have hres := pass2_rest (s.pass1 0) idx hv hb (hW idx hv hb)
    exact ⟨by rw [congrFun (step_rho_eq s 0) idx]; exact hres.1,
      by rw [congrFun (step_ux_eq s 0) idx]; exact hres.2.1,
      by rw [congrFun (step_uy_eq s 0) idx]; exact hres.2.2.1⟩

lemma iterate_step_width (s0 : LBMSolver) (c : ℝ) (n : ℕ) :
    ((fun t => t.step c)^[n] s0).width = s0.width := by
  induction n with
  | zero => rfl
  | succ n ih => rw [Function.iterate_succ_apply', step_width, ih]

lemma iterate_step_height (s0 : LBMSolver) (c : ℝ) (n : ℕ) :
    ((fun t => t.step c)^[n] s0).height = s0.height := by
  induction n with
  | zero => rfl
  | succ n ih => rw [Function.iterate_succ_apply', step_height, ih]

lemma iterate_step_barrier (s0 : LBMSolver) (c : ℝ) (n : ℕ) :
    ((fun t => t.step c)^[n] s0).barrier = s0.barrier := by
  induction n with
  | zero => rfl
  | succ n ih => rw [Function.iterate_succ_apply', step_barrier, ih]

lemma iterate_step_validIdx (s0 : LBMSolver) (c : ℝ) (n : ℕ) (idx : ℤ) :
    ((fun t => t.step c)^[n] s0).validIdx idx ↔ s0.validIdx idx := by
  unfold LBMSolver.validIdx
  rw [iterate_step_width, iterate_step_height]

lemma iterate_step_barrierAt (s0 : LBMSolver) (c : ℝ) (n : ℕ) (idx : ℤ) :
    ((fun t => t.step c)^[n] s0).barrierAt idx = s0.barrierAt idx := by
  unfold LBMSolver.barrierAt
  rw [iterate_step_barrier]

lemma RestInv_iterate (s0 : LBMSolver) (hInv : RestInv s0) (n : ℕ) :
    RestInv ((fun t => t.step 0)^[n] s0) := by
  induction n with
  | zero => exact hInv
  | succ n ih => rw [Function.iterate_succ_apply']; exact (step_rest _ ih).1

lemma RestInv_init_setObstacles (w h : ℤ) (v : ℝ) (mask : List Bool) :
    RestInv ((LBMSolver.init w h v).setObstacles mask) := by
  intro i hi idx hv _
  rw [congrFun (congrFun (setObstacles_f (LBMSolver.init w h v) mask) i) idx]
  have hv' : 0 ≤ idx ∧ idx < w * h := by
    obtain ⟨hw, h0, h1⟩ := hv
    rw [setObstacles_width] at hw h1
    rw [setObstacles_height] at h1
    exact ⟨h0, h1⟩
  simp only [LBMSolver.init]
  rw [if_pos ⟨hi, hv'⟩]

/-! ### The claims -/

/-- Claim C10: `setViscosity(v)` mutates only the viscosity field and the
relaxation coefficient `omega`, set to `1 / (3*v + 0.5)`; the population
buffers, the macroscopic arrays, the obstacle mask and the grid dimensions are
all unchanged. -/
theorem setViscosity_updates_only_viscosity_omega (s : LBMSolver) (v : ℝ) :
    (s.setViscosity v).viscosity = v ∧
      (s.setViscosity v).omega = 1 / (3 * v + 0.5) ∧
      (s.setViscosity v).width = s.width ∧
      (s.setViscosity v).height = s.height ∧
      (s.setViscosity v).rho = s.rho ∧
      (s.setViscosity v).ux = s.ux ∧
      (s.setViscosity v).uy = s.uy ∧
      (s.setViscosity v).f = s.f ∧
      (s.setViscosity v).fNew = s.fNew ∧
      (s.setViscosity v).barrier = s.barrier :=
  ⟨rfl, rfl, rfl, rfl, rfl, rfl, rfl, rfl, rfl, rfl⟩

/-- Claim C7: `setObstacles` with a mask whose length differs from
`width * height` is a silent no-op: the solver, and in particular its stored
obstacle mask, is left exactly unchanged, and no error is raised. -/
theorem setObstacles_wrong_length_noop (s : LBMSolver) (m : List Bool)
    (hlen : (m.length : ℤ) ≠ s.width * s.height) : s.setObstacles m = s := by
  unfold LBMSolver.setObstacles
  rw [if_pos hlen]

theorem setObstacles_wrong_length_noop_witness :
    (([true].length : ℤ) ≠ (LBMSolver.init 2 2 1).width * (LBMSolver.init 2 2 1).height) ∧
      (LBMSolver.init 2 2 1).setObstacles [true] = LBMSolver.init 2 2 1 :=
  ⟨by decide, setObstacles_wrong_length_noop (LBMSolver.init 2 2 1) [true] (by decide)⟩

/-- Claim C8, counterexample: the constructor called with `width = 0` (a
non-positive width) does not fail — it succeeds and yields a (degenerate)
solver instance. -/
theorem construct_zero_width_succeeds :
    LBMSolver.construct 0 3 1 = some (LBMSolver.init 0 3 1) ∧ (0 : ℤ) ≤ 0 := by
  refine ⟨?_, le_refl 0⟩
  unfold LBMSolver.construct
  rw [if_neg (by norm_num)]

/-- Claim C8, amended: construction fails exactly when the allocation size
`width * height` is negative (one dimension negative and the other positive);
for `width = 0`, `height = 0`, or both dimensions negative, the permissive
constructor succeeds. -/
theorem construct_none_iff_negative_area (w h : ℤ) (v : ℝ) :
    LBMSolver.construct w h v = none ↔ w * h < 0 := by
  unfold LBMSolver.construct
  split <;> simp_all

/-- Claim C6: after every completed `step`, every cell marked solid in the
obstacle mask reports velocity `(0, 0)` and density 1 in the macroscopic
arrays. -/
theorem step_solid_cell_macroscopic_reset (s : LBMSolver) (c : ℝ) (idx : ℤ)
    (hv : s.validIdx idx) (hb : s.barrierAt idx = true) :
    (s.step c).ux idx = 0 ∧ (s.step c).uy idx = 0 ∧ (s.step c).rho idx = 1 := by
  have hb1 : (s.pass1 c).barrierAt idx = true := by rw [pass1_barrierAt]; exact hb
  refine ⟨?_, ?_, ?_⟩
  · rw [congrFun (step_ux_eq s c) idx, pass2_ux_solid _ idx hb1,
      pass1_ux_solid s c idx hv hb]
  · rw [congrFun (step_uy_eq s c) idx, pass2_uy_solid _ idx hb1,
      pass1_uy_solid s c idx hv hb]
  · rw [congrFun (step_rho_eq s c) idx, pass2_rho_solid _ idx hb1,
      pass1_rho_solid s c idx hv hb]

theorem step_solid_cell_macroscopic_reset_witness :
    (((LBMSolver.init 2 2 1).setObstacles [true, false, false, false]).validIdx 0 ∧
        ((LBMSolver.init 2 2 1).setObstacles [true, false, false, false]).barrierAt 0 = true) ∧
      ((((LBMSolver.init 2 2 1).setObstacles [true, false, false, false]).step 0).ux 0 = 0 ∧
        (((LBMSolver.init 2 2 1).setObstacles [true, false, false, false]).step 0).uy 0 = 0 ∧
        (((LBMSolver.init 2 2 1).setObstacles [true, false, false, false]).step 0).rho 0 = 1) :=
  ⟨⟨by decide, by decide⟩,
    step_solid_cell_macroscopic_reset _ 0 0 (by decide) (by decide)⟩

/-- Claim C2: from a freshly constructed solver (every population at its
direction's lattice weight, so `rho = 1` and `u = 0` everywhere) with any
obstacle mask installed, after any number of `step 0` calls every fluid cell
still has `rho = 1`, `ux = 0` and `uy = 0`: the rest state is an exact fixed
point of `step` with inlet speed 0. -/
theorem rest_state_fixed_point (w h : ℤ) (v : ℝ) (mask : List Bool) (n : ℕ) (idx : ℤ)
    (hv : ((LBMSolver.init w h v).setObstacles mask).validIdx idx)
    (hb : ((LBMSolver.init w h v).setObstacles mask).barrierAt idx = false) :
    ((fun t => t.step 0)^[n] ((LBMSolver.init w h v).setObstacles mask)).rho idx = 1 ∧
      ((fun t => t.step 0)^[n] ((LBMSolver.init w h v).setObstacles mask)).ux idx = 0 ∧
      ((fun t => t.step 0)^[n] ((LBMSolver.init w h v).setObstacles mask)).uy idx = 0 := by
  cases n with
  | zero =>
    simp only [Function.iterate_zero, id_eq]
    have hv' : 0 ≤ idx ∧ idx < w * h := by
      obtain ⟨hw, h0, h1⟩ := hv
      rw [setObstacles_width] at hw h1
      rw [setObstacles_height] at h1
      exact ⟨h0, h1⟩
    refine ⟨?_, ?_, ?_⟩
    · rw [congrFun (setObstacles_rho _ _) idx]
      simp only [LBMSolver.init]
      rw [if_pos hv']
    · rw [congrFun (setObstacles_ux _ _) idx]
      rfl
    · rw [congrFun (setObstacles_uy _ _) idx]
      rfl
  | succ n =>
    rw [Function.iterate_succ_apply']
    have hInv := RestInv_iterate _ (RestInv_init_setObstacles w h v mask) n
    have hv' := (iterate_step_validIdx ((LBMSolver.init w h v).setObstacles mask)
      0 n idx).mpr hv
    have hb' : ((fun t => t.step 0)^[n]
        ((LBMSolver.init w h v).setObstacles mask)).barrierAt idx = false := by
      rw [iterate_step_barrierAt]; exact hb
    exact (step_rest _ hInv).2 idx hv' hb'

theorem rest_state_fixed_point_witness :
    (((LBMSolver.init 2 2 1).setObstacles [true, false, false, false]).validIdx 3 ∧
        ((LBMSolver.init 2 2 1).setObstacles [true, false, false, false]).barrierAt 3 = false) ∧
      (((fun t => t.step 0)^[5]
          ((LBMSolver.init 2 2 1).setObstacles [true, false, false, false])).rho 3 = 1 ∧
        ((fun t => t.step 0)^[5]
          ((LBMSolver.init 2 2 1).setObstacles [true, false, false, false])).ux 3 = 0 ∧
        ((fun t => t.step 0)^[5]
          ((LBMSolver.init 2 2 1).setObstacles [true, false, false, false])).uy 3 = 0) :=
  ⟨⟨by decide, by decide⟩,
    rest_state_fixed_point 2 2 1 [true, false, false, false] 5 3 (by decide) (by decide)⟩

/-- Claim C1: after every completed `step`, the stored velocity magnitude
`sqrt (ux^2 + uy^2)` at every cell is at most the fixed ceiling 0.35; and
whenever the pre-clamp speed at a fluid cell exceeds 0.35, the stored
velocity is the pre-clamp velocity rescaled by `0.35 / speed` — direction
preserved and magnitude exactly 0.35. -/
theorem step_velocity_clamped (s : LBMSolver) (c : ℝ) (idx : ℤ)
    (hv : s.validIdx idx) :
    Real.sqrt (((s.step c).ux idx) ^ 2 + ((s.step c).uy idx) ^ 2) ≤ 0.35 ∧
      (s.barrierAt idx = false →
        0.35 < Real.sqrt ((preClampU (s.pass1 c) idx).1 ^ 2 +
            (preClampU (s.pass1 c) idx).2 ^ 2) →
          (s.step c).ux idx = (preClampU (s.pass1 c) idx).1 *
              (0.35 / Real.sqrt ((preClampU (s.pass1 c) idx).1 ^ 2 +
                (preClampU (s.pass1 c) idx).2 ^ 2)) ∧
            (s.step c).uy idx = (preClampU (s.pass1 c) idx).2 *
              (0.35 / Real.sqrt ((preClampU (s.pass1 c) idx).1 ^ 2 +
                (preClampU (s.pass1 c) idx).2 ^ 2)) ∧
            Real.sqrt (((s.step c).ux idx) ^ 2 + ((s.step c).uy idx) ^ 2) = 0.35) := by
  by_cases hb : s.barrierAt idx = true
  · have hux : (s.step c).ux idx = 0 := by
      rw [congrFun (step_ux_eq s c) idx,
        pass2_ux_solid _ idx (by rw [pass1_barrierAt]; exact hb),
        pass1_ux_solid s c idx hv hb]
    have huy : (s.step c).uy idx = 0 := by
      rw [congrFun (step_uy_eq s c) idx,
        pass2_uy_solid _ idx (by rw [pass1_barrierAt]; exact hb),
        pass1_uy_solid s c idx hv hb]
    refine ⟨?_, ?_⟩
    · rw [hux, huy]
      norm_num [Real.sqrt_zero]
    · intro hbf
      rw [hbf] at hb
      exact absurd hb (by simp)
  · have hbf : s.barrierAt idx = false := by simpa using hb
    have hbf1 : (s.pass1 c).barrierAt idx = false := by
      rw [pass1_barrierAt]; exact hbf
    have hux : (s.step c).ux idx = (clampVelocity (preClampU (s.pass1 c) idx)).1 := by
      rw [congrFun (step_ux_eq s c) idx, pass2_ux_fluid (s.pass1 c) idx hv hbf1]
    have huy : (s.step c).uy idx = (clampVelocity (preClampU (s.pass1 c) idx)).2 := by
      rw [congrFun (step_uy_eq s c) idx, pass2_uy_fluid (s.pass1 c) idx hv hbf1]
    refine ⟨?_, ?_⟩
    · rw [hux, huy]
      exact clampVelocity_norm_le _
    · intro _ hover
      have hsq : (preClampU (s.pass1 c) idx).1 ^ 2 + (preClampU (s.pass1 c) idx).2 ^ 2 =
          (preClampU (s.pass1 c) idx).1 * (preClampU (s.pass1 c) idx).1 +
            (preClampU (s.pass1 c) idx).2 * (preClampU (s.pass1 c) idx).2 := by ring
      have hover' : 0.35 < Real.sqrt ((preClampU (s.pass1 c) idx).1 *
          (preClampU (s.pass1 c) idx).1 +
            (preClampU (s.pass1 c) idx).2 * (preClampU (s.pass1 c) idx).2) := by
        rw [← hsq]; exact hover
      refine ⟨?_, ?_, ?_⟩
      · rw [hux, clampVelocity_over _ hover', hsq]
      · rw [huy, clampVelocity_over _ hover', hsq]
      · rw [hux, huy]
        exact clampVelocity_norm_eq_of_over _ hover'

theorem step_velocity_clamped_witness :
    (LBMSolver.init 2 2 1).validIdx 0 ∧
      Real.sqrt ((((LBMSolver.init 2 2 1).step 0).ux 0) ^ 2 +
        (((LBMSolver.init 2 2 1).step 0).uy 0) ^ 2) ≤ 0.35 :=
  ⟨by decide, (step_velocity_clamped (LBMSolver.init 2 2 1) 0 0 (by decide)).1⟩

/-- Claim C3: during Pass 1, at every fluid cell and direction whose streaming
source lies inside the grid and is solid, the newly written population equals
the cell's own current population in the exactly opposite direction, with the
opposite-direction pairing given by the fixed table `[0,3,4,1,2,7,8,5,6]`
(axis directions swap with their opposites, diagonals with theirs). -/
theorem pass1_bounce_back (s : LBMSolver) (c : ℝ) (x y : ℤ) (i : ℕ) (hi : i < 9)
    (hx0 : 0 ≤ x) (hxw : x < s.width) (hy0 : 0 ≤ y) (hyh : y < s.height)
    (hfluid : s.barrierAt (y * s.width + x) = false)
    (hin : 0 ≤ x - EX i ∧ x - EX i < s.width ∧ 0 ≤ y - EY i ∧ y - EY i < s.height)
    (hsolid : s.barrierAt ((y - EY i) * s.width + (x - EX i)) = true) :
    (s.pass1 c).fNew i (y * s.width + x) = s.f (OPPOSITE i) (y * s.width + x) ∧
      EX (OPPOSITE i) = -EX i ∧ EY (OPPOSITE i) = -EY i ∧
      OPPOSITE 0 = 0 ∧ OPPOSITE 1 = 3 ∧ OPPOSITE 2 = 4 ∧ OPPOSITE 3 = 1 ∧
      OPPOSITE 4 = 2 ∧ OPPOSITE 5 = 7 ∧ OPPOSITE 6 = 8 ∧ OPPOSITE 7 = 5 ∧
      OPPOSITE 8 = 6 := by
  have hw : 0 < s.width := by omega
  have hvxy : s.validIdx (y * s.width + x) :=
    ⟨hw, (idx_bounds s.width s.height x y hx0 hxw hy0 hyh).1,
      (idx_bounds s.width s.height x y hx0 hxw hy0 hyh).2⟩
  refine ⟨?_, EX_OPPOSITE_neg i hi, EY_OPPOSITE_neg i hi,
    rfl, rfl, rfl, rfl, rfl, rfl, rfl, rfl, rfl⟩
  rw [pass1_fNew_fluid s c i _ hi hvxy hfluid, idx_emod s.width x y hx0 hxw,
    idx_ediv s.width x y hx0 hxw]
  simp only [streamVal]
  rw [if_pos hin, if_pos hsolid]

theorem pass1_bounce_back_witness :
    (((LBMSolver.init 2 1 1).setObstacles [true, false]).barrierAt
        (0 * ((LBMSolver.init 2 1 1).setObstacles [true, false]).width + 1) = false ∧
      ((LBMSolver.init 2 1 1).setObstacles [true, false]).barrierAt
        ((0 - EY 1) * ((LBMSolver.init 2 1 1).setObstacles [true, false]).width +
          (1 - EX 1)) = true) ∧
      (((LBMSolver.init 2 1 1).setObstacles [true, false]).pass1 0).fNew 1
          (0 * ((LBMSolver.init 2 1 1).setObstacles [true, false]).width + 1) =
        ((LBMSolver.init 2 1 1).setObstacles [true, false]).f (OPPOSITE 1)
          (0 * ((LBMSolver.init 2 1 1).setObstacles [true, false]).width + 1) :=
  ⟨⟨by decide, by decide⟩,
    (pass1_bounce_back ((LBMSolver.init 2 1 1).setObstacles [true, false]) 0 1 0 1
      (by decide) (by decide) (by decide) (by decide) (by decide) (by decide)
      ⟨by decide, by decide, by decide, by decide⟩ (by decide)).1⟩

/-- Claim C4: during Pass 1 of `step(inletSpeed)`, an arriving population
whose streaming source lies outside the grid on the left (`srcX < 0`), and
likewise one whose source has `srcX` in range but lies outside the top or
bottom edge, is set to the equilibrium distribution `computeEquilibrium` at
density 1 and velocity `(inletSpeed, 0)` (the D2Q9 second-order expansion with
coefficients 3, 4.5, 1.5 and weights 4/9, 1/9, 1/36). -/
theorem pass1_inlet_top_bottom_equilibrium (s : LBMSolver) (c : ℝ) (x y : ℤ)
    (i : ℕ) (hi : i < 9) (hx0 : 0 ≤ x) (hxw : x < s.width) (hy0 : 0 ≤ y)
    (hyh : y < s.height) (hfluid : s.barrierAt (y * s.width + x) = false) :
    (x - EX i < 0 →
        (s.pass1 c).fNew i (y * s.width + x) = computeEquilibrium i 1 c 0) ∧
      (0 ≤ x - EX i → x - EX i < s.width → (y - EY i < 0 ∨ s.height ≤ y - EY i) →
        (s.pass1 c).fNew i (y * s.width + x) = computeEquilibrium i 1 c 0) ∧
      computeEquilibrium i 1 c 0 =
        (W i : ℝ) * 1 * (1 + 3 * ((EX i : ℝ) * c) + 4.5 * (((EX i : ℝ) * c) *
          ((EX i : ℝ) * c)) - 1.5 * (c * c)) ∧
      W 0 = 4 / 9 ∧ W 1 = 1 / 9 ∧ W 2 = 1 / 9 ∧ W 3 = 1 / 9 ∧ W 4 = 1 / 9 ∧
      W 5 = 1 / 36 ∧ W 6 = 1 / 36 ∧ W 7 = 1 / 36 ∧ W 8 = 1 / 36 := by
  have hw : 0 < s.width := by omega
  have hvxy : s.validIdx (y * s.width + x) :=
    ⟨hw, (idx_bounds s.width s.height x y hx0 hxw hy0 hyh).1,
      (idx_bounds s.width s.height x y hx0 hxw hy0 hyh).2⟩
  have hrw : (s.pass1 c).fNew i (y * s.width + x) = streamVal s c i x y := by
    rw [pass1_fNew_fluid s c i _ hi hvxy hfluid, idx_emod s.width x y hx0 hxw,
      idx_ediv s.width x y hx0 hxw]
  refine ⟨?_, ?_, ?_, rfl, rfl, rfl, rfl, rfl, rfl, rfl, rfl, rfl⟩
  · intro hleft
    rw [hrw]
    simp only [streamVal]
    rw [if_neg (by omega), if_pos hleft]
  · intro hsx0 hsxw hyout
    rw [hrw]
    simp only [streamVal]
    rw [if_neg (by omega), if_neg (by omega), if_neg (by omega)]
  · simp only [computeEquilibrium]
    ring

theorem pass1_inlet_top_bottom_equilibrium_witness :
    ((LBMSolver.init 2 2 1).barrierAt (0 * (LBMSolver.init 2 2 1).width + 0) = false ∧
        (0 : ℤ) - EX 1 < 0) ∧
      ((LBMSolver.init 2 2 1).pass1 0).fNew 1
          (0 * (LBMSolver.init 2 2 1).width + 0) = computeEquilibrium 1 1 0 0 :=
  ⟨⟨by decide, by decide⟩,
    (pass1_inlet_top_bottom_equilibrium (LBMSolver.init 2 2 1) 0 0 0 1 (by decide)
      (by decide) (by decide) (by decide) (by decide) (by decide)).1 (by decide)⟩

/-- Claim C5: during Pass 1, an arriving population whose streaming source
lies outside the grid on the right (`srcX ≥ width`) — which can only happen at
a right-edge cell `x = width - 1` — is copied from the current buffer's value
for the same direction at the cell `(width - 1, y)` of the same row. -/
theorem pass1_outlet_copy (s : LBMSolver) (c : ℝ) (x y : ℤ) (i : ℕ) (hi : i < 9)
    (hx0 : 0 ≤ x) (hxw : x < s.width) (hy0 : 0 ≤ y) (hyh : y < s.height)
    (hfluid : s.barrierAt (y * s.width + x) = false)
    (hout : s.width ≤ x - EX i) :
    x = s.width - 1 ∧
      (s.pass1 c).fNew i (y * s.width + x) = s.f i (y * s.width + (s.width - 1)) := by
  have hw : 0 < s.width := by omega
  have hEX := (EX_bounds i hi).1
  have hvxy : s.validIdx (y * s.width + x) :=
    ⟨hw, (idx_bounds s.width s.height x y hx0 hxw hy0 hyh).1,
      (idx_bounds s.width s.height x y hx0 hxw hy0 hyh).2⟩
  refine ⟨by omega, ?_⟩
  rw [pass1_fNew_fluid s c i _ hi hvxy hfluid, idx_emod s.width x y hx0 hxw,
    idx_ediv s.width x y hx0 hxw]
  simp only [streamVal]
  rw [if_neg (by omega), if_neg (by omega), if_pos hout]

theorem pass1_outlet_copy_witness :
    ((LBMSolver.init 2 2 1).barrierAt (0 * (LBMSolver.init 2 2 1).width + 1) = false ∧
        (LBMSolver.init 2 2 1).width ≤ (1 : ℤ) - EX 3) ∧
      ((1 : ℤ) = (LBMSolver.init 2 2 1).width - 1 ∧
        ((LBMSolver.init 2 2 1).pass1 0).fNew 3
            (0 * (LBMSolver.init 2 2 1).width + 1) =
          (LBMSolver.init 2 2 1).f 3
            (0 * (LBMSolver.init 2 2 1).width + ((LBMSolver.init 2 2 1).width - 1))) :=
  ⟨⟨by decide, by decide⟩,
    pass1_outlet_copy (LBMSolver.init 2 2 1) 0 1 0 3 (by decide) (by decide)
      (by decide) (by decide) (by decide) (by decide) (by decide)⟩

/-- Claim C9, amended: every point emitted by the streamline integration loop
satisfies `-0.5 ≤ x < width` and `-0.5 ≤ y < height`: the bounds check runs
before the Euler step, so an emitted point can undershoot the lower grid
bounds by at most the integration step size 0.5, while the upper bounds are
respected strictly. -/
theorem trace_points_within_inflated_bounds (ux uy : ℤ → ℝ) (barrier : ℤ → Bool)
    (w h : ℤ) (n : ℕ) (p q : ℝ × ℝ)
    (hq : q ∈ traceFrom ux uy barrier w h n p) :
    -0.5 ≤ q.1 ∧ q.1 < (w : ℝ) ∧ -0.5 ≤ q.2 ∧ q.2 < (h : ℝ) := by
  induction n generalizing p with
  | zero => simp [traceFrom] at hq
  | succ n ih =>
    simp only [traceFrom] at hq
    by_cases hbnd : p.1 < 0 ∨ (w : ℝ) - 1 ≤ p.1 ∨ p.2 < 0 ∨ (h : ℝ) - 1 ≤ p.2
    · rw [if_pos hbnd] at hq
      simp at hq
    · rw [if_neg hbnd] at hq
      push_neg at hbnd
      obtain ⟨hp1, hp2, hp3, hp4⟩ := hbnd
      by_cases hsp : Real.sqrt (sample ux w h p.1 p.2 * sample ux w h p.1 p.2 +
          sample uy w h p.1 p.2 * sample uy w h p.1 p.2) < 0.001
      · rw [if_pos hsp] at hq
        simp at hq
      · rw [if_neg hsp] at hq
        by_cases hbar : barrier (⌊p.2⌋ * w + ⌊p.1⌋) = true
        · rw [if_pos hbar] at hq
          simp at hq
        · rw [if_neg hbar] at hq
          rcases List.mem_cons.mp hq with hqe | hqtail
          · have hS : (0.001 : ℝ) ≤ Real.sqrt (sample ux w h p.1 p.2 *
                sample ux w h p.1 p.2 +
                  sample uy w h p.1 p.2 * sample uy w h p.1 p.2) :=
              le_of_not_lt hsp
            have hSpos : (0 : ℝ) < Real.sqrt (sample ux w h p.1 p.2 *
                sample ux w h p.1 p.2 +
                  sample uy w h p.1 p.2 * sample uy w h p.1 p.2) :=
              lt_of_lt_of_le (by norm_num) hS
            have habs : ∀ a b : ℝ,
                |a| ≤ Real.sqrt (a * a + b * b) := by
              intro a b
              calc |a| = Real.sqrt (a * a) := (Real.sqrt_mul_self_eq_abs a).symm
                _ ≤ Real.sqrt (a * a + b * b) := Real.sqrt_le_sqrt (by nlinarith)
            have hstep : ∀ a b : ℝ, 0 < Real.sqrt (a * a + b * b) →
                |a / Real.sqrt (a * a + b * b) * 0.5| ≤ 0.5 := by
              intro a b hpos
              rw [abs_mul, abs_div, abs_of_pos hpos]
              have hdiv : |a| / Real.sqrt (a * a + b * b) ≤ 1 :=
                (div_le_one hpos).mpr (habs a b)
              calc |a| / Real.sqrt (a * a + b * b) * |(0.5 : ℝ)| =
                  |a| / Real.sqrt (a * a + b * b) * 0.5 := by norm_num
                _ ≤ 1 * 0.5 := by
                    apply mul_le_mul_of_nonneg_right hdiv
                    norm_num
                _ = 0.5 := by norm_num
            have hdx := hstep (sample ux w h p.1 p.2) (sample uy w h p.1 p.2) hSpos
            have hdy' : |sample uy w h p.1 p.2 / Real.sqrt (sample ux w h p.1 p.2 *
                sample ux w h p.1 p.2 +
                  sample uy w h p.1 p.2 * sample uy w h p.1 p.2) * 0.5| ≤ 0.5 := by
              have hcomm : sample ux w h p.1 p.2 * sample ux w h p.1 p.2 +
                  sample uy w h p.1 p.2 * sample uy w h p.1 p.2 =
                  sample uy w h p.1 p.2 * sample uy w h p.1 p.2 +
                    sample ux w h p.1 p.2 * sample ux w h p.1 p.2 := by ring
              rw [hcomm]
              exact hstep (sample uy w h p.1 p.2) (sample ux w h p.1 p.2)
                (hcomm ▸ hSpos)
            obtain ⟨hdx1, hdx2⟩ := abs_le.mp hdx
            obtain ⟨hdy1, hdy2⟩ := abs_le.mp hdy'
            rw [hqe]
            refine ⟨by simp only []; linarith, by simp only []; linarith,
              by simp only []; linarith, by simp only []; linarith⟩
          · exact ih _ hqtail

/-- Bilinear sampling of a constant field returns the constant whenever
neither out-of-range guard fires. -/
lemma sample_const (cst : ℝ) (w h : ℤ) (x y : ℝ)
    (hy : ¬(⌊y⌋ < 0 ∨ h ≤ ⌊y⌋ + 1))
    (hidx : ¬(w * h ≤ (⌊y⌋ + 1) * w + (⌊max 0 (min x ((w : ℝ) - 1.001))⌋ + 1))) :
    sample (fun _ => cst) w h x y = cst := by
  simp only [sample]
  rw [if_neg hy, if_neg hidx]
  ring

/-- Bilinear sampling of the all-zero field returns 0. -/
lemma sample_zero_field (w h : ℤ) (x y : ℝ) :
    sample (fun _ => (0 : ℝ)) w h x y = 0 := by
  simp only [sample]
  split
  · rfl
  · split
    · rfl
    · ring

lemma trace_left_sample_ux :
    sample (fun _ => (-0.1 : ℝ)) 4 4 0.2 1 = -0.1 := by
  have hfy : ⌊(1 : ℝ)⌋ = 1 := Int.floor_one
  have hfx : ⌊max (0 : ℝ) (min (0.2 : ℝ) (((4 : ℤ) : ℝ) - 1.001))⌋ = 0 := by
    have hmin : min (0.2 : ℝ) (((4 : ℤ) : ℝ) - 1.001) = 0.2 := by norm_num
    have hmax : max (0 : ℝ) (0.2 : ℝ) = 0.2 := by norm_num
    rw [hmin, hmax, Int.floor_eq_zero_iff]
    constructor <;> norm_num
  apply sample_const
  · rw [hfy]
    decide
  · rw [hfy, hfx]
    decide

lemma traceFrom_left_cons (n : ℕ) :
    traceFrom (fun _ => (-0.1 : ℝ)) (fun _ => (0 : ℝ)) (fun _ => false) 4 4
        (n + 1) (0.2, 1) =
      ((-0.3 : ℝ), (1 : ℝ)) ::
        traceFrom (fun _ => (-0.1 : ℝ)) (fun _ => (0 : ℝ)) (fun _ => false) 4 4
          n (-0.3, 1) := by
  have hsqrt : Real.sqrt ((-0.1 : ℝ) * -0.1 + 0 * 0) = 0.1 := by
    have harg : ((-0.1 : ℝ) * -0.1 + 0 * 0) = (0.1 : ℝ) ^ 2 := by norm_num
    rw [harg, Real.sqrt_sq (by norm_num : (0 : ℝ) ≤ 0.1)]
  simp only [traceFrom]
  rw [if_neg (by push_neg; refine ⟨by norm_num, by norm_num, by norm_num, by norm_num⟩)]
  rw [trace_left_sample_ux, sample_zero_field, hsqrt]
  norm_num

lemma traceFrom_left_stop (n : ℕ) :
    traceFrom (fun _ => (-0.1 : ℝ)) (fun _ => (0 : ℝ)) (fun _ => false) 4 4
      n (-0.3, 1) = [] := by
  cases n with
  | zero => rfl
  | succ n =>
    simp only [traceFrom]
    rw [if_pos]
    left
    norm_num

lemma traceFrom_left_eval :
    traceFrom (fun _ => (-0.1 : ℝ)) (fun _ => (0 : ℝ)) (fun _ => false) 4 4
      10 (0.2, 1) = [(-0.3, 1)] := by
  rw [show (10 : ℕ) = 9 + 1 from rfl, traceFrom_left_cons 9, traceFrom_left_stop 9]

/-- Claim C9, counterexample: on a frozen uniform leftward velocity field
(`ux = -0.1`, `uy = 0`, no obstacles, 4x4 grid), the trace seeded at
`(0.2, 1)` emits the point `(-0.3, 1)`, whose x coordinate is below 0 — the
trace emits a point outside the grid bounds. -/
theorem trace_emits_point_below_zero :
    ((-0.3 : ℝ), (1 : ℝ)) ∈
        traceFrom (fun _ => (-0.1 : ℝ)) (fun _ => (0 : ℝ)) (fun _ => false) 4 4
          10 (0.2, 1) ∧
      ¬(0 : ℝ) ≤ (-0.3 : ℝ) := by
  refine ⟨?_, by norm_num⟩
  rw [traceFrom_left_eval]
  exact List.mem_singleton.mpr rfl

theorem trace_points_within_inflated_bounds_witness :
    (((-0.3 : ℝ), (1 : ℝ)) ∈
        traceFrom (fun _ => (-0.1 : ℝ)) (fun _ => (0 : ℝ)) (fun _ => false) 4 4
          10 (0.2, 1)) ∧
      (-0.5 ≤ ((-0.3 : ℝ), (1 : ℝ)).1 ∧ ((-0.3 : ℝ), (1 : ℝ)).1 < ((4 : ℤ) : ℝ) ∧
        -0.5 ≤ ((-0.3 : ℝ), (1 : ℝ)).2 ∧ ((-0.3 : ℝ), (1 : ℝ)).2 < ((4 : ℤ) : ℝ)) := by
  have hmem : ((-0.3 : ℝ), (1 : ℝ)) ∈
      traceFrom (fun _ => (-0.1 : ℝ)) (fun _ => (0 : ℝ)) (fun _ => false) 4 4
        10 (0.2, 1) := by
    rw [traceFrom_left_eval]
    exact List.mem_singleton.mpr rfl
  exact ⟨hmem, trace_points_within_inflated_bounds (fun _ => (-0.1 : ℝ))
    (fun _ => (0 : ℝ)) (fun _ => false) 4 4 10 (0.2, 1) (-0.3, 1) hmem⟩

end LBM
